import Mathlib

/-!
# Verification of the libo spreadsheet core (src/src/libo.c)

Shallow embedding of the libo document model and its codec routines.

Conventions of the embedding:
* C `char *` strings that are scanned byte by byte (cell references, the
  inputs of `atoi`/`atof`) are modelled as `List Nat` of byte values
  (ASCII codes); 'A' = 65, 'Z' = 90, '0' = 48, '9' = 57.
* C strings that are only created, stored and compared as a whole (sheet
  names, shared-string texts, XML output fragments, element names) are
  modelled as Lean `String`.
* C `int` is modelled as `Int`, C `unsigned int`/sizes as `Nat` where the
  source can only reach non-negative values, and C `double`/`float` as `ℚ`
  (the source never performs floating-point arithmetic on them; it only
  stores, copies and compares these values).
* NULL pointers are modelled as `Option.none` where a claim depends on
  them; array + count pairs are modelled as `List`s (the source keeps the
  count equal to the allocated length on every path the claims touch).
* A separate explicit-heap model (`CHeap`, `mcell`, ...) is used where a
  claim is about pointer ownership, which a pure value model cannot see.
-/

/-- C `isalpha` on a byte value (ASCII locale): 'A'-'Z' or 'a'-'z'. -/
def isalpha (c : Nat) : Bool :=
  (decide (65 ≤ c) && decide (c ≤ 90)) || (decide (97 ≤ c) && decide (c ≤ 122))

/-- C `isdigit` on a byte value: '0'-'9'. -/
def isdigitb (c : Nat) : Bool :=
  decide (48 ≤ c) && decide (c ≤ 57)

/-- C `isspace` on a byte value: space, \t, \n, \v, \f, \r. -/
def isspaceb (c : Nat) : Bool :=
  decide (c = 32) || (decide (9 ≤ c) && decide (c ≤ 13))

/-- The digit-accumulation loop of C `atoi`/`strtol`: consume decimal
digits, stopping at the first non-digit byte. -/
def digitsVal : List Nat → Int → Int
  | [], acc => acc
  | c :: rest, acc =>
    if isdigitb c then digitsVal rest (acc * 10 + ((c : Int) - 48)) else acc

/-- C `atoi`: skip leading whitespace, optional sign, then decimal digits;
returns 0 when no digits are present. -/
def atoi (s : List Nat) : Int :=
  let s1 := s.dropWhile isspaceb
  match s1 with
  | 45 :: rest => - digitsVal rest 0
  | 43 :: rest => digitsVal rest 0
  | _ => digitsVal s1 0

/-- The column-accumulation loop of `cell_ref_to_row_col` (libo.c:2971-2979):
walks the alphabetic run from its last byte to its first, adding
`(byte - 'A' + 1) * 26^mag` with `mag` increasing.  The argument list here
is the alphabetic run already reversed (last byte first), mirroring the
C loop that walks the pointer `p` backwards. -/
def colValAux : List Nat → Nat → Int
  | [], _ => 0
  | c :: rest, mag => ((c : Int) - 65 + 1) * 26 ^ mag + colValAux rest (mag + 1)

/-- `cell_ref_to_row_col` (libo.c:2953-2984): splits the leading alphabetic
run from the rest, row = atoi(rest) - 1, column = (base-26 value of the
alphabetic run with digits 'A'..'Z' = 1..26) - 1.  The C function is `void`
with out-parameters and has no failure path; it always produces a pair. -/
def cell_ref_to_row_col (ref : List Nat) : Int × Int :=
  let letters := ref.takeWhile isalpha
  let rest := ref.dropWhile isalpha
  (atoi rest - 1, colValAux letters.reverse 0 - 1)

/-- The do-while loop of `column_number_to_reference` (libo.c:4768-4774):
given the already pre-incremented counter `n ≥ 1`, emits
`'A' + (n-1) % 26` and continues with `(n-1) / 26` while that is non-zero.
Digits are produced least-significant first, as in the C loop. -/
def colDigits : Nat → List Nat
  | 0 => []
  | m + 1 => (65 + m % 26) :: colDigits (m / 26)
decreasing_by exact Nat.lt_succ_of_le (Nat.div_le_self m 26)

/-- `column_number_to_reference` (libo.c:4758-4777): pre-increments `n`,
runs the digit loop, then reverses the collected letters. -/
def column_number_to_reference (n : Nat) : List Nat :=
  (colDigits (n + 1)).reverse

/-- Modelled from the spec: a well-formed cell reference is a non-empty
leading alphabetic run followed by a non-empty run of digits and nothing
else ("Fails with InvalidAddress when the alphabetic or numeric run is
empty or the text contains other characters").  The C code has no such
check; this definition exists to compare the spec's words with the code. -/
def wellFormedRef (ref : List Nat) : Bool :=
  !(ref.takeWhile isalpha).isEmpty &&
  !(ref.dropWhile isalpha).isEmpty &&
  (ref.dropWhile isalpha).all isdigitb

/- ### Lemmas about the address codec -/

theorem colDigits_mem_bounds : ∀ m, ∀ c ∈ colDigits m, 65 ≤ c ∧ c ≤ 90 := by
  intro m
  induction m using Nat.strong_induction_on with
  | _ m ih =>
    match m with
    | 0 => intro c hc; simp [colDigits] at hc
    | Nat.succ k =>
      intro c hc
      rw [colDigits] at hc
      rcases List.mem_cons.mp hc with h | h
      · subst h
        constructor
        · omega
        · have : k % 26 < 26 := Nat.mod_lt _ (by omega)
          omega
      · exact ih (k / 26) (Nat.lt_succ_of_le (Nat.div_le_self k 26)) c h

theorem isalpha_of_upper {c : Nat} (h1 : 65 ≤ c) (h2 : c ≤ 90) :
    isalpha c = true := by
  simp [isalpha]
  omega

theorem takeWhile_append_of_all {p : Nat → Bool} :
    ∀ (l1 l2 : List Nat), (∀ c ∈ l1, p c = true) →
      (l1 ++ l2).takeWhile p = l1 ++ l2.takeWhile p := by
  intro l1 l2 h
  induction l1 with
  | nil => simp
  | cons a as ih =>
    have ha : p a = true := h a (List.mem_cons_self a as)
    simp [List.takeWhile_cons, ha]
    exact ih (fun c hc => h c (List.mem_cons_of_mem a hc))

theorem dropWhile_append_of_all {p : Nat → Bool} :
    ∀ (l1 l2 : List Nat), (∀ c ∈ l1, p c = true) →
      (l1 ++ l2).dropWhile p = l2.dropWhile p := by
  intro l1 l2 h
  induction l1 with
  | nil => simp
  | cons a as ih =>
    have ha : p a = true := h a (List.mem_cons_self a as)
    simp [List.dropWhile_cons, ha]
    exact ih (fun c hc => h c (List.mem_cons_of_mem a hc))

theorem colValAux_colDigits : ∀ m mag,
    colValAux (colDigits (m + 1)) mag = (m + 1 : Int) * 26 ^ mag := by
  intro m
  induction m using Nat.strong_induction_on with
  | _ m ih =>
    intro mag
    rw [colDigits]
    rcases Nat.eq_zero_or_pos (m / 26) with h0 | hpos
    · have hm : m < 26 := by
        rcases Nat.lt_or_ge m 26 with h | h
        · exact h
        · exact absurd h0 (by have := Nat.div_le_div_right (c := 26) h; simp at this; omega)
      rw [h0, colDigits, colValAux, colValAux]
      have : m % 26 = m := Nat.mod_eq_of_lt hm
      rw [this]
      push_cast
      ring
    · obtain ⟨k, hk⟩ : ∃ k, m / 26 = k + 1 := ⟨m / 26 - 1, by omega⟩
      have hklt : k < m := by
        have h1 : m / 26 ≤ m := Nat.div_le_self m 26
        omega
      rw [hk, colValAux, ih k hklt (mag + 1)]
      have hsplit : (m : Int) = (m % 26 : Nat) + 26 * ((m / 26 : Nat) : Int) := by
        have := Nat.mod_add_div m 26
        push_cast
        omega
      rw [hk] at hsplit
      push_cast at hsplit ⊢
      rw [pow_succ]
      linear_combination (-(26:ℤ) ^ mag) * hsplit

/-- **C1**: For every non-negative integer column index n, formatting n with
`column_number_to_reference` and appending the row text "1" (byte 49), then
parsing the result with `cell_ref_to_row_col`, yields row 0 and column n. -/
theorem C1_column_roundtrip (n : Nat) :
    cell_ref_to_row_col (column_number_to_reference n ++ [49]) = (0, (n : Int)) := by
  have halpha : ∀ c ∈ (colDigits (n + 1)).reverse, isalpha c = true := by
    intro c hc
    rw [List.mem_reverse] at hc
    obtain ⟨h1, h2⟩ := colDigits_mem_bounds (n + 1) c hc
    exact isalpha_of_upper h1 h2
  rw [cell_ref_to_row_col, column_number_to_reference]
  rw [takeWhile_append_of_all _ _ halpha, dropWhile_append_of_all _ _ halpha]
  have htake : List.takeWhile isalpha [49] = [] := rfl
  have hdrop : List.dropWhile isalpha [49] = [49] := rfl
  rw [htake, hdrop]
  have hrow : atoi [49] = 1 := rfl
  rw [hrow, List.append_nil, List.reverse_reverse, colValAux_colDigits n 0]
  simp

/-- **C6 counterexample**: on the input "1" (byte 49), whose alphabetic run
is empty, `cell_ref_to_row_col` does not fail with any error — the C
function is `void`, has no error path, and here computes the in-band
answer row 0, column -1. -/
theorem C6_counterexample_no_failure :
    wellFormedRef [49] = false ∧ cell_ref_to_row_col [49] = (0, -1) := by
  constructor
  · rfl
  · rfl

/-- **C6 (amended)**: `cell_ref_to_row_col` never fails: it is a total
function with no error result.  On an input whose alphabetic run is empty
it returns column -1, and on an input whose trailing part after the
alphabetic run is empty it returns row -1; malformed input is observable
only through these negative components, never through an `InvalidAddress`
error, which does not exist in the code. -/
theorem C6_total_no_error (ref : List Nat) :
    (ref.takeWhile isalpha = [] → (cell_ref_to_row_col ref).2 = -1) ∧
    (ref.dropWhile isalpha = [] → (cell_ref_to_row_col ref).1 = -1) := by
  constructor
  · intro h
    simp [cell_ref_to_row_col, h, colValAux]
  · intro h
    simp [cell_ref_to_row_col, h, atoi, digitsVal]

/-- Witness for the amended C6 theorem at the inputs "1" and "A". -/
theorem C6_total_no_error_witness :
    (cell_ref_to_row_col [49]).2 = -1 ∧ (cell_ref_to_row_col [65]).1 = -1 :=
  ⟨(C6_total_no_error [49]).1 rfl, (C6_total_no_error [65]).2 rfl⟩

/- ### The document model (libo.h:46-285), value level -/

/-- `libo_xl_cell_type` (libo.h:60-66). -/
inductive libo_xl_cell_type where
  | none
  | reference
  | expression
  | number
deriving DecidableEq, Repr

/-- `libo_xl_cell_expression` (libo.h:95-99): owned formula and cached
value strings, NULL modelled as `Option.none`. -/
structure libo_xl_cell_expression where
  formula : Option String
  value : Option String
deriving DecidableEq, Repr

/-- `libo_xl_cell` (libo.h:115-124).  The C payload is a union of the
`reference`, `expression` and `number` members; the model carries all
three fields, and every code path that re-types a cell zeroes all of them
(the C `memset` of the union), so the inactive fields always hold the
zero values the C bytes would decode to. -/
structure libo_xl_cell where
  type : libo_xl_cell_type
  reference : Int
  expression : libo_xl_cell_expression
  number : ℚ
deriving DecidableEq, Repr

/-- `libo_xl_row` (libo.h:140-144); `n_cells` is the list length. -/
structure libo_xl_row where
  cell : List libo_xl_cell
deriving DecidableEq, Repr

/-- `libo_xl_freeze_type` (libo.h:152-157). -/
inductive libo_xl_freeze_type where
  | none
  | top
  | left
deriving DecidableEq, Repr

/-- `libo_xl_freeze` (libo.h:173-177). -/
structure libo_xl_freeze where
  type : libo_xl_freeze_type
  n : Int
deriving DecidableEq, Repr

/-- `libo_xl_column` (libo.h:193-197). -/
structure libo_xl_column where
  width : ℚ
  autowidth : Int
deriving DecidableEq, Repr

/-- `libo_xl_filter` (libo.h:213-217). -/
structure libo_xl_filter where
  first_column : Nat
  last_column : Nat
deriving DecidableEq, Repr

/-- `libo_xl_sheet` (libo.h:233-245); `n_rows` is the length of `row`. -/
structure libo_xl_sheet where
  n_cols : Int
  name : Option String
  ID : Int
  rID : Option String
  default_row_height : ℚ
  freeze : libo_xl_freeze
  row : List libo_xl_row
  column : List libo_xl_column
  filter : Option libo_xl_filter
deriving DecidableEq, Repr

/-- `libo_xl_book` (libo.h:261-265); `n_sheets` is the list length. -/
structure libo_xl_book where
  sheet : List libo_xl_sheet
deriving DecidableEq, Repr

/-- `libo_xl_cell_new` (libo.c:2114-2122): malloc + memset 0. -/
def libo_xl_cell_new : libo_xl_cell :=
  { type := libo_xl_cell_type.none
    reference := 0
    expression := { formula := Option.none, value := Option.none }
    number := 0 }

/-- `libo_xl_cell_set_type` (libo.c:803-816): when the previous kind is
Expression, frees the owned formula/value strings; then memsets the whole
union payload to zero (which zeroes the reference, expression and number
members alike) and assigns the new kind. -/
def libo_xl_cell_set_type (xlc : libo_xl_cell) (t : libo_xl_cell_type) : libo_xl_cell :=
  let xlc :=
    if xlc.type = libo_xl_cell_type.expression then
      { xlc with expression := { formula := Option.none, value := Option.none } }
    else xlc
  let xlc :=
    { xlc with
      reference := 0
      expression := { formula := Option.none, value := Option.none }
      number := 0 }
  { xlc with type := t }

/-- `libo_xl_cell_clear` (libo.c:4920-4946): per-kind payload clearing
(in the `number` case the C writes the union's `reference` member),
then a type change to `none`. -/
def libo_xl_cell_clear (cell : libo_xl_cell) : libo_xl_cell :=
  let cell :=
    match cell.type with
    | libo_xl_cell_type.reference => { cell with reference := 0 }
    | libo_xl_cell_type.expression =>
      { cell with expression := { formula := Option.none, value := Option.none } }
    | libo_xl_cell_type.number => { cell with reference := 0 }
    | libo_xl_cell_type.none => cell
  libo_xl_cell_set_type cell libo_xl_cell_type.none

/-- `libo_xl_cell_expression_set_formula` (libo.c:1043-1057), value level:
no-op on a NULL argument, otherwise replaces the formula with a fresh copy
of the argument and frees the old string. -/
def libo_xl_cell_expression_set_formula (xlce : libo_xl_cell_expression)
    (formula : Option String) : libo_xl_cell_expression :=
  match formula with
  | Option.none => xlce
  | some f => { xlce with formula := some f }

/-- `libo_xl_cell_expression_set_value` (libo.c:1089-1102), value level. -/
def libo_xl_cell_expression_set_value (xlce : libo_xl_cell_expression)
    (value : Option String) : libo_xl_cell_expression :=
  match value with
  | Option.none => xlce
  | some v => { xlce with value := some v }

/-- `libo_xl_cell_set_number` (libo.c:1134-1143): clear, retype, assign. -/
def libo_xl_cell_set_number (xlc : libo_xl_cell) (number : ℚ) : libo_xl_cell :=
  let c := libo_xl_cell_clear xlc
  let c := libo_xl_cell_set_type c libo_xl_cell_type.number
  { c with number := number }

/-- `libo_xl_cell_set_reference` (libo.c:900-906): guarded on the kind. -/
def libo_xl_cell_set_reference (xlc : libo_xl_cell) (reference : Int) : libo_xl_cell :=
  if xlc.type = libo_xl_cell_type.reference then { xlc with reference := reference }
  else xlc

/-- `libo_xl_cell_set_expression` (libo.c:1002-1012): clear, retype, then
copy the argument's formula/value when present. -/
def libo_xl_cell_set_expression (xlc : libo_xl_cell)
    (xlce : libo_xl_cell_expression) : libo_xl_cell :=
  let c := libo_xl_cell_clear xlc
  let c := libo_xl_cell_set_type c libo_xl_cell_type.expression
  let c :=
    match xlce.formula with
    | some _ =>
      { c with expression := libo_xl_cell_expression_set_formula c.expression xlce.formula }
    | Option.none => c
  match xlce.value with
  | some _ =>
    { c with expression := libo_xl_cell_expression_set_value c.expression xlce.value }
  | Option.none => c

/-- Modelled from the spec: the external libstrings interning dictionary
(spec §1, §6 "String-interning collaborator", §3 "String Table"): an
ordered, de-duplicated list of texts; an entry's id is its position, ids
are assigned in insertion order.  `strings_find_by_text` returns the entry
(id, text) of the first occurrence. -/
def strings_find_by_text : List String → String → Option (Nat × String)
  | [], _ => Option.none
  | s :: rest, t =>
    if s = t then some (0, s)
    else (strings_find_by_text rest t).map (fun e => (e.1 + 1, e.2))

/-- Modelled from the spec: lookup by id (= position) in the dictionary. -/
def strings_find_by_id (st : List String) (id : Int) : Option (Nat × String) :=
  if 0 ≤ id then (st.get? id.toNat).map (fun s => (id.toNat, s))
  else Option.none

/-- Modelled from the spec: idempotent insert ("insertion is idempotent
(same text maps to the same id)"); a new text is appended, receiving the
next id. -/
def strings_add (st : List String) (text : String) : List String :=
  if (strings_find_by_text st text).isSome then st else st ++ [text]

/-- `libo_xl_cell_set_text` (libo.c:950-970): clear, retype to Reference,
then intern the text (insert if absent) and store the entry's id.  Returns
the updated string table together with the updated cell. -/
def libo_xl_cell_set_text (strs : List String) (xlc : libo_xl_cell)
    (text : String) : List String × libo_xl_cell :=
  let c := libo_xl_cell_clear xlc
  let c := libo_xl_cell_set_type c libo_xl_cell_type.reference
  match strings_find_by_text strs text with
  | some e => (strs, libo_xl_cell_set_reference c (e.1 : Int))
  | Option.none =>
    let strs := strings_add strs text
    match strings_find_by_text strs text with
    | some e => (strs, libo_xl_cell_set_reference c (e.1 : Int))
    | Option.none => (strs, c)

/-- `libo_xl_book_get_sheet` (libo.c:618-626): NULL book, negative index
or index ≥ count give NULL. -/
def libo_xl_book_get_sheet (xlb : Option libo_xl_book) (n : Int) : Option libo_xl_sheet :=
  match xlb with
  | Option.none => Option.none
  | some b =>
    if n < 0 then Option.none
    else if (b.sheet.length : Int) ≤ n then Option.none
    else b.sheet.get? n.toNat

/-- `libo_xl_sheet_get_row` (libo.c:724-734). -/
def libo_xl_sheet_get_row (xls : Option libo_xl_sheet) (n : Int) : Option libo_xl_row :=
  match xls with
  | Option.none => Option.none
  | some s =>
    if n < 0 then Option.none
    else if (s.row.length : Int) ≤ n then Option.none
    else s.row.get? n.toNat

/-- `libo_xl_row_get_cell` (libo.c:764-772). -/
def libo_xl_row_get_cell (xlr : Option libo_xl_row) (n : Int) : Option libo_xl_cell :=
  match xlr with
  | Option.none => Option.none
  | some r =>
    if n < 0 then Option.none
    else if (r.cell.length : Int) ≤ n then Option.none
    else r.cell.get? n.toNat

/-- `libo_xl_cell_get_reference` (libo.c:880-886): 0 for NULL or a
non-Reference cell. -/
def libo_xl_cell_get_reference (xlc : Option libo_xl_cell) : Int :=
  match xlc with
  | Option.none => 0
  | some c =>
    if c.type ≠ libo_xl_cell_type.reference then 0 else c.reference

/-- `libo_xl_cell_get_number` (libo.c:1114-1120): 0 for NULL or a
non-Number cell. -/
def libo_xl_cell_get_number (xlc : Option libo_xl_cell) : ℚ :=
  match xlc with
  | Option.none => 0
  | some c =>
    if c.type ≠ libo_xl_cell_type.number then 0 else c.number

/-- `libo_xl_cell_dup` (libo.c:2134-2157), value level: the memcpy copies
the cell's contents.  This value-level definition captures only the
copied contents; the pointer-level behaviour of the same C function — for
Expression cells the fix-up calls are applied to the SOURCE cell, leaving
the returned copy's formula/value pointers dangling — is modelled
explicitly by `mem_libo_xl_cell_dup` in the heap model below. -/
def libo_xl_cell_dup (cell : libo_xl_cell) : libo_xl_cell :=
  cell

/-- `libo_xl_row_dup` (libo.c:2033-2048): a new row with a dup of every
cell appended via `libo_xl_row_add`. -/
def libo_xl_row_dup (row : libo_xl_row) : libo_xl_row :=
  { cell := row.cell.map libo_xl_cell_dup }

/-- `libo_xl_row_add` (libo.c:2087-2101): appends a dup of the cell. -/
def libo_xl_row_add (xlr : libo_xl_row) (xlc : libo_xl_cell) : libo_xl_row :=
  { cell := xlr.cell ++ [libo_xl_cell_dup xlc] }

/-- `libo_xl_sheet_new` (libo.c:1842-1853): all fields zeroed, then the
default row height set to 14.4. -/
def libo_xl_sheet_new : libo_xl_sheet :=
  { n_cols := 0
    name := Option.none
    ID := 0
    rID := Option.none
    default_row_height := 14.4
    freeze := { type := libo_xl_freeze_type.none, n := 0 }
    row := []
    column := []
    filter := Option.none }

/-- `libo_xl_sheet_add` (libo.c:1985-1999): appends a dup of the row. -/
def libo_xl_sheet_add (xls : libo_xl_sheet) (xlr : libo_xl_row) : libo_xl_sheet :=
  { xls with row := xls.row ++ [libo_xl_row_dup xlr] }

/-- `libo_xl_sheet_dup` (libo.c:1865-1885): fresh sheet, then copies only
`n_cols`, `default_row_height`, `name` and the rows (each appended through
`libo_xl_sheet_add`). -/
def libo_xl_sheet_dup (sheet : libo_xl_sheet) : libo_xl_sheet :=
  let nsheet := libo_xl_sheet_new
  let nsheet := { nsheet with n_cols := sheet.n_cols
                              default_row_height := sheet.default_row_height }
  let nsheet := { nsheet with name := sheet.name }
  sheet.row.foldl libo_xl_sheet_add nsheet

/-- `libo_xl_book_add` (libo.c:1805-1829): appends a dup of the sheet at
position `n_sheets`, then overwrites the copy's `ID` with `n_sheets + 1`
and its `rID` with `"rId" + (n_sheets + 4)`. -/
def libo_xl_book_add (xlb : libo_xl_book) (xls : libo_xl_sheet) : libo_xl_book :=
  let nsheet := libo_xl_sheet_dup xls
  let nsheet := { nsheet with ID := (xlb.sheet.length : Int) + 1 }
  let nsheet := { nsheet with rID := some ("rId" ++ toString (xlb.sheet.length + 4)) }
  { sheet := xlb.sheet ++ [nsheet] }

/- ### Claims C5, C8, C9, C10 -/

theorem sheet_add_foldl (s : libo_xl_sheet) (l : List libo_xl_row) :
    l.foldl libo_xl_sheet_add s = { s with row := s.row ++ l.map libo_xl_row_dup } := by
  induction l generalizing s with
  | nil => simp
  | cons r rs ih =>
    rw [List.foldl_cons, ih]
    simp [libo_xl_sheet_add]

/-- **C10**: `libo_xl_sheet_dup` copies only the name, the column count,
the default row height and the rows of its argument; the duplicate's
numeric id is 0, its relationship id is NULL, and the argument's freeze
descriptor, column filter and per-column attributes are not carried over
(they keep the fresh-sheet values). -/
theorem C10_sheet_dup_copies_only_name_cols_height_rows (sheet : libo_xl_sheet) :
    (libo_xl_sheet_dup sheet).name = sheet.name ∧
    (libo_xl_sheet_dup sheet).n_cols = sheet.n_cols ∧
    (libo_xl_sheet_dup sheet).default_row_height = sheet.default_row_height ∧
    (libo_xl_sheet_dup sheet).row = sheet.row.map libo_xl_row_dup ∧
    (libo_xl_sheet_dup sheet).ID = 0 ∧
    (libo_xl_sheet_dup sheet).rID = Option.none ∧
    (libo_xl_sheet_dup sheet).freeze = { type := libo_xl_freeze_type.none, n := 0 } ∧
    (libo_xl_sheet_dup sheet).column = [] ∧
    (libo_xl_sheet_dup sheet).filter = Option.none := by
  simp [libo_xl_sheet_dup, sheet_add_foldl, libo_xl_sheet_new]

/-- **C5**: for a workbook with p sheets, `libo_xl_book_add` appends the
copied sheet at position p, sets the copy's id to p+1 and its relationship
id to "rId"++(p+4), increments the sheet count by one, leaves the existing
sheets untouched, and does all of this regardless of the id and
relationship id carried by the argument. -/
theorem C5_book_add_assigns_fresh_ids (xlb : libo_xl_book) (xls : libo_xl_sheet) :
    (libo_xl_book_add xlb xls).sheet.length = xlb.sheet.length + 1 ∧
    (libo_xl_book_add xlb xls).sheet.take xlb.sheet.length = xlb.sheet ∧
    (libo_xl_book_add xlb xls).sheet.get? xlb.sheet.length =
      some { libo_xl_sheet_dup xls with
             ID := (xlb.sheet.length : Int) + 1
             rID := some ("rId" ++ toString (xlb.sheet.length + 4)) } ∧
    (∀ id rid, libo_xl_book_add xlb { xls with ID := id, rID := rid } =
      libo_xl_book_add xlb xls) := by
  refine ⟨?_, ?_, ?_, ?_⟩
  · simp [libo_xl_book_add]
  · simp [libo_xl_book_add, List.take_left]
  · simp [libo_xl_book_add, List.get?_concat_length]
  · intro id rid
    rfl

/-- **C8**: changing a cell's kind through `libo_xl_cell_set_type` (also
via the typed setters) leaves the zero/empty payload behind: no prior
formula, value, reference id or number remains observable after the type
change. -/
theorem C8_clear_before_retype (cell : libo_xl_cell) (t : libo_xl_cell_type)
    (x : ℚ) (e : libo_xl_cell_expression) (strs : List String) (text : String) :
    libo_xl_cell_set_type cell t =
      { type := t
        reference := 0
        expression := { formula := Option.none, value := Option.none }
        number := 0 } ∧
    libo_xl_cell_set_number cell x =
      { type := libo_xl_cell_type.number
        reference := 0
        expression := { formula := Option.none, value := Option.none }
        number := x } ∧
    libo_xl_cell_set_expression cell e =
      { type := libo_xl_cell_type.expression
        reference := 0
        expression := { formula := e.formula, value := e.value }
        number := 0 } ∧
    ((libo_xl_cell_set_text strs cell text).2.type = libo_xl_cell_type.reference ∧
     (libo_xl_cell_set_text strs cell text).2.expression =
       { formula := Option.none, value := Option.none } ∧
     (libo_xl_cell_set_text strs cell text).2.number = 0) := by
  have hset : libo_xl_cell_set_type cell t =
      { type := t
        reference := 0
        expression := { formula := Option.none, value := Option.none }
        number := 0 } := by
    by_cases h : cell.type = libo_xl_cell_type.expression <;>
      simp [libo_xl_cell_set_type, h]
  have hclear : ∀ (c : libo_xl_cell) (t' : libo_xl_cell_type),
      libo_xl_cell_set_type (libo_xl_cell_clear c) t' =
      { type := t'
        reference := 0
        expression := { formula := Option.none, value := Option.none }
        number := 0 } := by
    intro c t'
    cases hc : c.type <;>
      simp [libo_xl_cell_clear, libo_xl_cell_set_type, hc]
  refine ⟨hset, ?_, ?_, ?_⟩
  · simp [libo_xl_cell_set_number, hclear]
  · cases hf : e.formula <;> cases hv : e.value <;>
      simp [libo_xl_cell_set_expression, hclear, hf, hv,
        libo_xl_cell_expression_set_formula, libo_xl_cell_expression_set_value]
  · cases hfind : strings_find_by_text strs text with
    | some a =>
      simp [libo_xl_cell_set_text, hfind, hclear, libo_xl_cell_set_reference]
    | none =>
      cases hfind2 : strings_find_by_text (strings_add strs text) text with
      | some a =>
        simp [libo_xl_cell_set_text, hfind, hfind2, hclear, libo_xl_cell_set_reference]
      | none =>
        simp [libo_xl_cell_set_text, hfind, hfind2, hclear]

/-- **C9**: the read-side accessors are total and return neutral defaults:
NULL for a NULL owner, a negative index or an index beyond the count, 0
for the reference id of a NULL or non-Reference cell, and 0 for the number
of a NULL or non-Number cell. -/
theorem C9_accessors_neutral_defaults :
    (∀ n, libo_xl_book_get_sheet Option.none n = Option.none) ∧
    (∀ (b : libo_xl_book) (n : Int), n < 0 →
      libo_xl_book_get_sheet (some b) n = Option.none) ∧
    (∀ (b : libo_xl_book) (n : Int), (b.sheet.length : Int) ≤ n →
      libo_xl_book_get_sheet (some b) n = Option.none) ∧
    (∀ n, libo_xl_sheet_get_row Option.none n = Option.none) ∧
    (∀ (s : libo_xl_sheet) (n : Int), n < 0 →
      libo_xl_sheet_get_row (some s) n = Option.none) ∧
    (∀ (s : libo_xl_sheet) (n : Int), (s.row.length : Int) ≤ n →
      libo_xl_sheet_get_row (some s) n = Option.none) ∧
    (∀ n, libo_xl_row_get_cell Option.none n = Option.none) ∧
    (∀ (r : libo_xl_row) (n : Int), n < 0 →
      libo_xl_row_get_cell (some r) n = Option.none) ∧
    (∀ (r : libo_xl_row) (n : Int), (r.cell.length : Int) ≤ n →
      libo_xl_row_get_cell (some r) n = Option.none) ∧
    libo_xl_cell_get_reference Option.none = 0 ∧
    (∀ c : libo_xl_cell, c.type ≠ libo_xl_cell_type.reference →
      libo_xl_cell_get_reference (some c) = 0) ∧
    libo_xl_cell_get_number Option.none = 0 ∧
    (∀ c : libo_xl_cell, c.type ≠ libo_xl_cell_type.number →
      libo_xl_cell_get_number (some c) = 0) := by
  refine ⟨fun n => rfl, ?_, ?_, fun n => rfl, ?_, ?_, fun n => rfl, ?_, ?_,
    rfl, ?_, rfl, ?_⟩
  · intro b n h
    simp [libo_xl_book_get_sheet, h]
  · intro b n h
    have h2 : ¬ n < 0 ∨ n < 0 := em _ |>.symm
    simp [libo_xl_book_get_sheet, h]
  · intro s n h
    simp [libo_xl_sheet_get_row, h]
  · intro s n h
    simp [libo_xl_sheet_get_row, h]
  · intro r n h
    simp [libo_xl_row_get_cell, h]
  · intro r n h
    simp [libo_xl_row_get_cell, h]
  · intro c h
    simp [libo_xl_cell_get_reference, h]
  · intro c h
    simp [libo_xl_cell_get_number, h]

/-- Witness for C9 at concrete inputs: a one-sheet book queried at -1 and
at 1, an empty sheet queried at 0, an empty row queried at 0, a Number
cell asked for its reference and an Empty cell asked for its number. -/
theorem C9_accessors_neutral_defaults_witness :
    libo_xl_book_get_sheet (some { sheet := [libo_xl_sheet_new] }) (-1) = Option.none ∧
    libo_xl_book_get_sheet (some { sheet := [libo_xl_sheet_new] }) 1 = Option.none ∧
    libo_xl_sheet_get_row (some libo_xl_sheet_new) 0 = Option.none ∧
    libo_xl_row_get_cell (some { cell := [] }) 0 = Option.none ∧
    libo_xl_cell_get_reference (some (libo_xl_cell_set_number libo_xl_cell_new 5)) = 0 ∧
    libo_xl_cell_get_number (some libo_xl_cell_new) = 0 :=
  ⟨C9_accessors_neutral_defaults.2.1 _ (-1) (by decide),
   C9_accessors_neutral_defaults.2.2.1 _ 1 (by simp),
   C9_accessors_neutral_defaults.2.2.2.2.2.1 _ 0 (by simp [libo_xl_sheet_new]),
   C9_accessors_neutral_defaults.2.2.2.2.2.2.2.2.1 _ 0 (by simp),
   C9_accessors_neutral_defaults.2.2.2.2.2.2.2.2.2.2.1 _ (by
     simp [libo_xl_cell_set_number, libo_xl_cell_clear, libo_xl_cell_set_type,
       libo_xl_cell_new]),
   C9_accessors_neutral_defaults.2.2.2.2.2.2.2.2.2.2.2.2 _ (by
     simp [libo_xl_cell_new])⟩

/- ### Heap model for pointer-level ownership (claim C4) -/

/-- A tiny explicit heap of C strings: `next` is the next fresh address,
`mem` records allocations; an address mapped to `Option.none` has been
freed.  Address 0 plays the role of NULL and is never allocated. -/
structure CHeap where
  next : Nat
  mem : List (Nat × Option String)
deriving DecidableEq, Repr

/-- Read the string stored at an address; `Option.none` for NULL, for a
never-allocated address and for a freed address. -/
def hget (h : CHeap) (a : Nat) : Option String :=
  match h.mem.find? (fun e => e.1 == a) with
  | some e => e.2
  | Option.none => Option.none

/-- `malloc`+copy: allocate a fresh address holding the given string. -/
def halloc (h : CHeap) (s : String) : CHeap × Nat :=
  ({ next := h.next + 1, mem := (h.next, some s) :: h.mem }, h.next)

/-- C `free`: the address no longer holds a string. -/
def hfree (h : CHeap) (a : Nat) : CHeap :=
  { h with mem := (a, Option.none) :: h.mem }

/-- C `strdup`: reads the string at the source address and allocates a
fresh copy.  Reading NULL or a dead address is undefined behaviour in C;
the model returns NULL without allocating in that case. -/
def strdupM (h : CHeap) (a : Nat) : CHeap × Nat :=
  match hget h a with
  | some s => halloc h s
  | Option.none => (h, 0)

/-- `libo_xl_cell` at the pointer level: the Expression member's
`formula`/`value` are raw addresses into the heap (0 = NULL). -/
structure mcell where
  type : libo_xl_cell_type
  reference : Int
  number : ℚ
  formula : Nat
  value : Nat
deriving DecidableEq, Repr

/-- `libo_xl_cell_expression_set_formula` (libo.c:1043-1057) at the
pointer level, acting on a cell's formula field: given the current field
and the source pointer, saves the old pointer, strdups the source into
the field, then frees the old pointer (when non-NULL).  Returns the new
heap and the new field value. -/
def mem_expression_set_formula (h : CHeap) (field : Nat) (formula : Nat) :
    CHeap × Nat :=
  if formula = 0 then (h, field)
  else
    let old_formula := field
    let hp := strdupM h formula
    let h2 := if old_formula ≠ 0 then hfree hp.1 old_formula else hp.1
    (h2, hp.2)

/-- `libo_xl_cell_expression_set_value` (libo.c:1089-1102) at the pointer
level; same strdup-then-free shape as the formula setter. -/
def mem_expression_set_value (h : CHeap) (field : Nat) (value : Nat) :
    CHeap × Nat :=
  if value = 0 then (h, field)
  else
    let old_value := field
    let hp := strdupM h value
    let h2 := if old_value ≠ 0 then hfree hp.1 old_value else hp.1
    (h2, hp.2)

/-- `libo_xl_cell_dup` (libo.c:2134-2157) at the pointer level.  The C
first memcpys the whole cell into `ncell` (so `ncell` shares the formula
and value POINTERS with `cell`), and then — for an Expression cell — calls
the expression setters on `&cell->expression`, i.e. on the ORIGINAL cell,
with the original's own strings as sources.  Each setter strdups a fresh
buffer into the original and frees the old buffer, which is exactly the
buffer the memcpy'd `ncell` still points to.  Returns (heap, updated
original, returned copy). -/
def mem_libo_xl_cell_dup (h : CHeap) (cell : mcell) : CHeap × mcell × mcell :=
  let ncell := cell
  if cell.type = libo_xl_cell_type.expression then
    let step1 :=
      if cell.formula ≠ 0 then
        let r := mem_expression_set_formula h cell.formula cell.formula
        (r.1, { cell with formula := r.2 })
      else (h, cell)
    let step2 :=
      if step1.2.value ≠ 0 then
        let r := mem_expression_set_value step1.1 step1.2.value step1.2.value
        (r.1, { step1.2 with value := r.2 })
      else step1
    (step2.1, step2.2, ncell)
  else (h, cell, ncell)

/-- `libo_xl_row_add` (libo.c:2087-2101) at the pointer level: appends the
cell returned by `mem_libo_xl_cell_dup`. -/
def mem_libo_xl_row_add (h : CHeap) (row : List mcell) (cell : mcell) :
    CHeap × List mcell × mcell :=
  let r := mem_libo_xl_cell_dup h cell
  (r.1, row ++ [r.2.2], r.2.1)

/-- **C4** (failing-input evaluation): adding an Expression cell whose
formula is the string "F" (at address 1) and whose cached value is "V"
(at address 2) to an empty row.  The appended "copy" keeps the original
addresses 1 and 2, but after the add both addresses have been freed — the
fix-up inside `libo_xl_cell_dup` re-allocated the ORIGINAL cell's strings
(now at the fresh addresses 3 and 4) and freed the buffers the copy points
to.  Mutating either cell afterwards therefore cannot be independent: the
copy does not own live strings at all, contradicting the claimed deep-copy
semantics (and the function's own "returns deep copy" documentation). -/
theorem C4_cell_dup_copy_dangles :
    (mem_libo_xl_row_add
        { next := 3, mem := [(1, some "F"), (2, some "V")] }
        []
        { type := libo_xl_cell_type.expression
          reference := 0
          number := 0
          formula := 1
          value := 2 }) =
      ({ next := 5
         mem := [(2, Option.none), (4, some "V"), (1, Option.none),
                 (3, some "F"), (1, some "F"), (2, some "V")] },
       [{ type := libo_xl_cell_type.expression
          reference := 0
          number := 0
          formula := 1
          value := 2 }],
       { type := libo_xl_cell_type.expression
         reference := 0
         number := 0
         formula := 3
         value := 4 }) ∧
    hget (mem_libo_xl_row_add
        { next := 3, mem := [(1, some "F"), (2, some "V")] }
        []
        { type := libo_xl_cell_type.expression
          reference := 0
          number := 0
          formula := 1
          value := 2 }).1 1 = Option.none ∧
    hget (mem_libo_xl_row_add
        { next := 3, mem := [(1, some "F"), (2, some "V")] }
        []
        { type := libo_xl_cell_type.expression
          reference := 0
          number := 0
          formula := 1
          value := 2 }).1 2 = Option.none := by
  refine ⟨?_, rfl, rfl⟩
  rfl

/- ### Writer: sheetViews / frozen pane block (claim C7) -/

/-- `libo_xl_sheet_sheetviews_add` (libo.c:4287-4357): the XML fragment
appended to the output buffer for one sheet.  No fragment is emitted when
the freeze kind is `none`.  In the C source every `left` case of the four
switches has its `break` BEFORE the `strapp` call, so a left-freeze emits
empty pieces; the model reproduces that faithfully. -/
def libo_xl_sheet_sheetviews_add (sht : libo_xl_sheet) : String :=
  if sht.freeze.type = libo_xl_freeze_type.none then ""
  else
    "<sheetViews>\n" ++
    "<sheetView tabSelected=\"1\" topLeftCell=\"A1\" workbookViewId=\"0\">\n" ++
    "<pane " ++
    (match sht.freeze.type with
     | libo_xl_freeze_type.none => ""
     | libo_xl_freeze_type.top => "ySplit"
     | libo_xl_freeze_type.left => "") ++
    "=\"1\" topLeftCell=\"" ++
    (match sht.freeze.type with
     | libo_xl_freeze_type.none => ""
     | libo_xl_freeze_type.top => "A" ++ toString (sht.freeze.n + 1)
     | libo_xl_freeze_type.left => "") ++
    "\" activePane=\"" ++
    (match sht.freeze.type with
     | libo_xl_freeze_type.none => ""
     | libo_xl_freeze_type.top => "bottomLeft"
     | libo_xl_freeze_type.left => "") ++
    "\" state=\"frozen\"/>" ++
    "<selection pane=\"" ++
    (match sht.freeze.type with
     | libo_xl_freeze_type.none => ""
     | libo_xl_freeze_type.top => "bottomLeft"
     | libo_xl_freeze_type.left => "") ++
    "\"/>" ++
    "</sheetView>\n" ++
    "</sheetViews>\n"

/-- **C7**: a sheet frozen with kind top and count 1 emits a frozen-pane
declaration whose pane anchor cell (`topLeftCell` of the `pane` element)
is "A2" — column A, row 2, i.e. 0-based row 1 — and whose active pane is
"bottomLeft", the horizontal-split pane assigned to a top-freeze. -/
theorem C7_top_freeze_pane (sht : libo_xl_sheet)
    (h : sht.freeze = { type := libo_xl_freeze_type.top, n := 1 }) :
    libo_xl_sheet_sheetviews_add sht =
      "<sheetViews>\n" ++
      "<sheetView tabSelected=\"1\" topLeftCell=\"A1\" workbookViewId=\"0\">\n" ++
      "<pane ySplit=\"1\" topLeftCell=\"A2\" activePane=\"bottomLeft\"" ++
      " state=\"frozen\"/><selection pane=\"bottomLeft\"/>" ++
      "</sheetView>\n" ++
      "</sheetViews>\n" := by
  simp [libo_xl_sheet_sheetviews_add, h]
  rfl

/-- Witness for C7: a fresh sheet with a top/1 freeze descriptor. -/
theorem C7_top_freeze_pane_witness :
    libo_xl_sheet_sheetviews_add
      { libo_xl_sheet_new with freeze := { type := libo_xl_freeze_type.top, n := 1 } } =
      "<sheetViews>\n" ++
      "<sheetView tabSelected=\"1\" topLeftCell=\"A1\" workbookViewId=\"0\">\n" ++
      "<pane ySplit=\"1\" topLeftCell=\"A2\" activePane=\"bottomLeft\"" ++
      " state=\"frozen\"/><selection pane=\"bottomLeft\"/>" ++
      "</sheetView>\n" ++
      "</sheetViews>\n" :=
  C7_top_freeze_pane _ rfl

/- ### Shared-string renumbering (claim C2) -/

/-- Left-to-right map with an accumulating state (the in-place mutation
loops of the C pass, made explicit). -/
def mapAccumL {σ α β : Type} (f : σ → α → σ × β) : σ → List α → σ × List β
  | s, [] => (s, [])
  | s, a :: as =>
    let r := f s a
    let r2 := mapAccumL f r.1 as
    (r2.1, r.2 :: r2.2)

/-- The per-cell body of `libo_xl_renumber_strings` (libo.c:4203-4226):
only Reference cells act; the cell's old id is looked up in the old table,
the text is searched in the fresh table; on a hit the cell takes the
existing fresh id, otherwise the old entry's text (when the old id
resolved at all) is added to the fresh table and the cell takes the
running counter `new_id`, which is incremented.  State = (fresh table,
new_id). -/
def renumber_cell (old : List String) (st : List String × Nat)
    (cell : libo_xl_cell) : (List String × Nat) × libo_xl_cell :=
  if cell.type = libo_xl_cell_type.reference then
    match (match strings_find_by_id old cell.reference with
           | some e => strings_find_by_text st.1 e.2
           | Option.none => Option.none) with
    | some f => ((strings_add st.1 f.2, st.2), { cell with reference := (f.1 : Int) })
    | Option.none =>
      ((match strings_find_by_id old cell.reference with
        | some e => strings_add st.1 e.2
        | Option.none => st.1,
        st.2 + 1),
       { cell with reference := (st.2 : Int) })
  else (st, cell)

/-- The row loop of the pass (libo.c:4200-4227). -/
def renumber_row (old : List String) (st : List String × Nat)
    (row : libo_xl_row) : (List String × Nat) × libo_xl_row :=
  let r := mapAccumL (renumber_cell old) st row.cell
  (r.1, { cell := r.2 })

/-- The sheet loop of the pass (libo.c:4196-4228). -/
def renumber_sheet (old : List String) (st : List String × Nat)
    (sheet : libo_xl_sheet) : (List String × Nat) × libo_xl_sheet :=
  let r := mapAccumL (renumber_row old) st sheet.row
  (r.1, { sheet with row := r.2 })

/-- `libo_xl_renumber_strings` (libo.c:4168-4233): walks every sheet, row
and cell in document order starting from a fresh empty table and a zero
counter, rewrites Reference ids, frees the old table and installs the
fresh one.  Returns (renumbered book, fresh table). -/
def libo_xl_renumber_strings (old : List String) (book : libo_xl_book) :
    libo_xl_book × List String :=
  let r := mapAccumL (renumber_sheet old) ([], 0) book.sheet
  ({ sheet := r.2 }, r.1.1)

/-- All cells of a workbook in document order (sheets, rows, cells). -/
def allCells (book : libo_xl_book) : List libo_xl_cell :=
  book.sheet.flatMap (fun sheet => sheet.row.flatMap (fun row => row.cell))

/-- The text a cell contributes to the shared-string walk: the old-table
text of a Reference cell, nothing for the other kinds. -/
def cellText (old : List String) (cell : libo_xl_cell) : Option String :=
  if cell.type = libo_xl_cell_type.reference then
    (strings_find_by_id old cell.reference).map (fun e => e.2)
  else Option.none

/-- The document-order list of Reference-cell texts of a workbook. -/
def docTexts (old : List String) (book : libo_xl_book) : List String :=
  (allCells book).filterMap (cellText old)

/-- First-encounter de-duplication: fold the idempotent insert over the
list, starting from the empty table. -/
def firstDedup (l : List String) : List String :=
  l.foldl strings_add []

/- #### Facts about the interning-dictionary model -/

theorem strings_find_by_text_eq_some {st : List String} {t : String}
    {e : Nat × String} (he : strings_find_by_text st t = some e) :
    e.2 = t ∧ st.get? e.1 = some t := by
  induction st generalizing e with
  | nil => simp [strings_find_by_text] at he
  | cons s rest ih =>
    by_cases h : s = t
    · rw [strings_find_by_text, if_pos h] at he
      cases he
      exact ⟨h, by simp [h]⟩
    · rw [strings_find_by_text, if_neg h] at he
      rcases Option.map_eq_some'.mp he with ⟨f, hf, rfl⟩
      obtain ⟨h1, h2⟩ := ih hf
      exact ⟨h1, by simpa using h2⟩

theorem strings_find_by_text_isSome_iff {st : List String} {t : String} :
    (strings_find_by_text st t).isSome ↔ t ∈ st := by
  induction st with
  | nil => simp [strings_find_by_text]
  | cons s rest ih =>
    by_cases h : s = t
    · simp [strings_find_by_text, h]
    · simp [strings_find_by_text, h, Option.isSome_map', ih]
      exact fun hmem => (h hmem.symm).elim

theorem strings_find_by_text_append {st : List String} (tl : List String)
    {t : String} {e : Nat × String} (he : strings_find_by_text st t = some e) :
    strings_find_by_text (st ++ tl) t = some e := by
  induction st generalizing e with
  | nil => simp [strings_find_by_text] at he
  | cons s rest ih =>
    by_cases h : s = t
    · rw [strings_find_by_text, if_pos h] at he
      cases he
      simp [strings_find_by_text, h]
    · rw [strings_find_by_text, if_neg h] at he
      rcases Option.map_eq_some'.mp he with ⟨f, hf, rfl⟩
      rw [List.cons_append, strings_find_by_text, if_neg h, ih hf]
      rfl

theorem strings_find_by_text_append_self {st : List String} {t : String}
    (h : t ∉ st) :
    strings_find_by_text (st ++ [t]) t = some (st.length, t) := by
  induction st with
  | nil => simp [strings_find_by_text]
  | cons s rest ih =>
    have hs : s ≠ t := fun hst => h (hst ▸ List.mem_cons_self s rest)
    have hrest : t ∉ rest := fun hm => h (List.mem_cons_of_mem s hm)
    rw [List.cons_append, strings_find_by_text, if_neg hs, ih hrest]
    rfl

theorem strings_find_by_id_of_find_by_text {st : List String} {t : String}
    {e : Nat × String} (he : strings_find_by_text st t = some e) :
    strings_find_by_id st ((e.1 : Int)) = some (e.1, t) := by
  obtain ⟨-, hget⟩ := strings_find_by_text_eq_some he
  rw [strings_find_by_id, if_pos (Int.natCast_nonneg e.1), Int.toNat_natCast, hget]
  rfl

theorem strings_add_of_mem {st : List String} {t : String} (h : t ∈ st) :
    strings_add st t = st := by
  rw [strings_add, if_pos (strings_find_by_text_isSome_iff.mpr h)]

theorem strings_add_of_not_mem {st : List String} {t : String} (h : t ∉ st) :
    strings_add st t = st ++ [t] := by
  rw [strings_add, if_neg]
  intro hs
  exact h (strings_find_by_text_isSome_iff.mp hs)

theorem strings_add_extends (st : List String) (t : String) :
    st <+: strings_add st t := by
  by_cases h : t ∈ st
  · rw [strings_add_of_mem h]
  · rw [strings_add_of_not_mem h]
    exact ⟨[t], rfl⟩

theorem strings_add_nodup {st : List String} {t : String} (h : st.Nodup) :
    (strings_add st t).Nodup := by
  by_cases hm : t ∈ st
  · rwa [strings_add_of_mem hm]
  · rw [strings_add_of_not_mem hm]
    simp [List.nodup_append, h, hm]

theorem foldl_strings_add_extends (l : List String) (acc : List String) :
    acc <+: l.foldl strings_add acc := by
  induction l generalizing acc with
  | nil => exact List.prefix_rfl
  | cons t rest ih =>
    exact List.IsPrefix.trans (strings_add_extends acc t) (ih (strings_add acc t))

theorem foldl_strings_add_nodup (l : List String) {acc : List String}
    (h : acc.Nodup) : (l.foldl strings_add acc).Nodup := by
  induction l generalizing acc with
  | nil => exact h
  | cons t rest ih => exact ih (strings_add_nodup h)

/-- The per-cell postcondition of the pass relative to the final fresh
table `tbl`: a non-Reference cell is untouched; a Reference cell whose old
id resolved to text `t` keeps everything but its id, and its new id is
non-negative and is the id under which `t` is found in `tbl`. -/
def renumbered_ok (old tbl : List String) (c c' : libo_xl_cell) : Prop :=
  (c.type ≠ libo_xl_cell_type.reference → c' = c) ∧
  (c.type = libo_xl_cell_type.reference →
    ∀ e, strings_find_by_id old c.reference = some e →
      c' = { c with reference := c'.reference } ∧ 0 ≤ c'.reference ∧
      strings_find_by_text tbl e.2 = some (c'.reference.toNat, e.2))

theorem renumber_cells_spec (old : List String) :
    ∀ (cs : List libo_xl_cell) (acc : List String),
      (∀ c ∈ cs, c.type = libo_xl_cell_type.reference →
        (strings_find_by_id old c.reference).isSome) →
      (mapAccumL (renumber_cell old) (acc, acc.length) cs).1.1
          = (cs.filterMap (cellText old)).foldl strings_add acc ∧
      (mapAccumL (renumber_cell old) (acc, acc.length) cs).1.2
          = (mapAccumL (renumber_cell old) (acc, acc.length) cs).1.1.length ∧
      acc <+: (mapAccumL (renumber_cell old) (acc, acc.length) cs).1.1 ∧
      List.Forall₂
        (renumbered_ok old (mapAccumL (renumber_cell old) (acc, acc.length) cs).1.1)
        cs (mapAccumL (renumber_cell old) (acc, acc.length) cs).2 := by
  intro cs
  induction cs with
  | nil =>
    intro acc _
    exact ⟨rfl, rfl, List.prefix_rfl, List.Forall₂.nil⟩
  | cons c cs ih =>
    intro acc H
    have Hc := H c (List.mem_cons_self c cs)
    have Hcs : ∀ c' ∈ cs, c'.type = libo_xl_cell_type.reference →
        (strings_find_by_id old c'.reference).isSome :=
      fun c' h' => H c' (List.mem_cons_of_mem c h')
    by_cases hc : c.type = libo_xl_cell_type.reference
    · obtain ⟨e, he⟩ := Option.isSome_iff_exists.mp (Hc hc)
      have htext : cellText old c = some e.2 := by
        rw [cellText, if_pos hc, he]
        rfl
      cases hf : strings_find_by_text acc e.2 with
      | some f =>
        obtain ⟨hf1, hf2⟩ := strings_find_by_text_eq_some hf
        have hmem : e.2 ∈ acc := List.get?_mem hf2
        have hstep : renumber_cell old (acc, acc.length) c
            = ((strings_add acc f.2, acc.length),
               { c with reference := (f.1 : Int) }) := by
          simp only [renumber_cell, if_pos hc, he, hf]
        have hsa : strings_add acc f.2 = acc := by
          rw [hf1]
          exact strings_add_of_mem hmem
        obtain ⟨ih1, ih2, ih3, ih4⟩ := ih acc Hcs
        have hmal : mapAccumL (renumber_cell old) (acc, acc.length) (c :: cs)
            = ((mapAccumL (renumber_cell old) (acc, acc.length) cs).1,
               { c with reference := (f.1 : Int) } ::
                 (mapAccumL (renumber_cell old) (acc, acc.length) cs).2) := by
          simp only [mapAccumL, hstep, hsa]
        rw [hmal]
        have htbl : (mapAccumL (renumber_cell old) (acc, acc.length) cs).1.1
            = ((c :: cs).filterMap (cellText old)).foldl strings_add acc := by
          rw [ih1, List.filterMap_cons_some htext, List.foldl_cons]
          rw [hf1] at hsa
          rw [hsa]
        refine ⟨htbl, ih2, ih3, List.Forall₂.cons ?_ ih4⟩
        constructor
        · intro habs
          exact absurd hc habs
        · intro _ e' he'
          rw [he] at he'
          cases he'
          refine ⟨rfl, Int.natCast_nonneg f.1, ?_⟩
          obtain ⟨tl, htl⟩ := ih3
          rw [← htl]
          have := strings_find_by_text_append tl hf
          rw [this, Int.toNat_natCast]
          exact congrArg some (Prod.ext rfl hf1)
      | none =>
        have hnmem : e.2 ∉ acc := by
          intro hm
          have hs := strings_find_by_text_isSome_iff.mpr hm
          rw [hf] at hs
          simp at hs
        have hstep : renumber_cell old (acc, acc.length) c
            = ((strings_add acc e.2, acc.length + 1),
               { c with reference := (acc.length : Int) }) := by
          simp only [renumber_cell, if_pos hc, he, hf]
        have hsa : strings_add acc e.2 = acc ++ [e.2] := strings_add_of_not_mem hnmem
        have hlen : acc.length + 1 = (acc ++ [e.2]).length := by simp
        obtain ⟨ih1, ih2, ih3, ih4⟩ := ih (acc ++ [e.2]) Hcs
        have hmal : mapAccumL (renumber_cell old) (acc, acc.length) (c :: cs)
            = ((mapAccumL (renumber_cell old)
                  (acc ++ [e.2], (acc ++ [e.2]).length) cs).1,
               { c with reference := (acc.length : Int) } ::
                 (mapAccumL (renumber_cell old)
                   (acc ++ [e.2], (acc ++ [e.2]).length) cs).2) := by
          simp only [mapAccumL, hstep, hsa, hlen]
        rw [hmal]
        have htbl : (mapAccumL (renumber_cell old)
              (acc ++ [e.2], (acc ++ [e.2]).length) cs).1.1
            = ((c :: cs).filterMap (cellText old)).foldl strings_add acc := by
          rw [ih1, List.filterMap_cons_some htext, List.foldl_cons, hsa]
        have hpre : acc <+: (mapAccumL (renumber_cell old)
            (acc ++ [e.2], (acc ++ [e.2]).length) cs).1.1 :=
          List.IsPrefix.trans ⟨[e.2], rfl⟩ ih3
        refine ⟨htbl, ih2, hpre, List.Forall₂.cons ?_ ih4⟩
        constructor
        · intro habs
          exact absurd hc habs
        · intro _ e' he'
          rw [he] at he'
          cases he'
          refine ⟨rfl, Int.natCast_nonneg acc.length, ?_⟩
          obtain ⟨tl, htl⟩ := ih3
          rw [← htl]
          have hself := strings_find_by_text_append_self hnmem
          have := strings_find_by_text_append tl hself
          rw [this, Int.toNat_natCast]
    · have hstep : renumber_cell old (acc, acc.length) c = ((acc, acc.length), c) := by
        simp only [renumber_cell, if_neg hc]
      have htext : cellText old c = Option.none := by
        rw [cellText, if_neg hc]
      obtain ⟨ih1, ih2, ih3, ih4⟩ := ih acc Hcs
      have hmal : mapAccumL (renumber_cell old) (acc, acc.length) (c :: cs)
          = ((mapAccumL (renumber_cell old) (acc, acc.length) cs).1,
             c :: (mapAccumL (renumber_cell old) (acc, acc.length) cs).2) := by
        simp only [mapAccumL, hstep]
      rw [hmal]
      have htbl : (mapAccumL (renumber_cell old) (acc, acc.length) cs).1.1
          = ((c :: cs).filterMap (cellText old)).foldl strings_add acc := by
        rw [ih1, List.filterMap_cons_none htext]
      refine ⟨htbl, ih2, ih3, List.Forall₂.cons ⟨fun _ => rfl, fun habs => absurd habs hc⟩ ih4⟩

theorem mapAccumL_append {σ α β : Type} (f : σ → α → σ × β) (s : σ)
    (l1 l2 : List α) :
    mapAccumL f s (l1 ++ l2) =
      ((mapAccumL f (mapAccumL f s l1).1 l2).1,
       (mapAccumL f s l1).2 ++ (mapAccumL f (mapAccumL f s l1).1 l2).2) := by
  induction l1 generalizing s with
  | nil => simp [mapAccumL]
  | cons a as ih => simp [mapAccumL, ih]

theorem renumber_rows_flat (old : List String) (rows : List libo_xl_row)
    (st : List String × Nat) :
    (mapAccumL (renumber_row old) st rows).1
        = (mapAccumL (renumber_cell old) st (rows.flatMap (fun r => r.cell))).1 ∧
    ((mapAccumL (renumber_row old) st rows).2.flatMap (fun r => r.cell))
        = (mapAccumL (renumber_cell old) st (rows.flatMap (fun r => r.cell))).2 := by
  induction rows generalizing st with
  | nil => simp [mapAccumL]
  | cons r rs ih =>
    obtain ⟨h1, h2⟩ := ih (mapAccumL (renumber_cell old) st r.cell).1
    refine ⟨?_, ?_⟩
    · simp only [mapAccumL, renumber_row, List.flatMap_cons, mapAccumL_append]
      exact h1
    · simp only [mapAccumL, renumber_row, List.flatMap_cons, mapAccumL_append]
      rw [h2]

theorem renumber_sheets_flat (old : List String) (sheets : List libo_xl_sheet)
    (st : List String × Nat) :
    (mapAccumL (renumber_sheet old) st sheets).1
        = (mapAccumL (renumber_cell old) st
            (sheets.flatMap (fun sh => sh.row.flatMap (fun r => r.cell)))).1 ∧
    ((mapAccumL (renumber_sheet old) st sheets).2.flatMap
        (fun sh => sh.row.flatMap (fun r => r.cell)))
        = (mapAccumL (renumber_cell old) st
            (sheets.flatMap (fun sh => sh.row.flatMap (fun r => r.cell)))).2 := by
  induction sheets generalizing st with
  | nil => simp [mapAccumL]
  | cons sh shs ih =>
    obtain ⟨hr1, hr2⟩ := renumber_rows_flat old sh.row st
    obtain ⟨h1, h2⟩ := ih (mapAccumL (renumber_row old) st sh.row).1
    refine ⟨?_, ?_⟩
    · simp only [mapAccumL, renumber_sheet, List.flatMap_cons, mapAccumL_append]
      rw [h1, hr1]
    · simp only [mapAccumL, renumber_sheet, List.flatMap_cons, mapAccumL_append]
      rw [hr2, h2, hr1]

theorem forall₂_exists_left {α β : Type} {R : α → β → Prop} :
    ∀ {l1 : List α} {l2 : List β}, List.Forall₂ R l1 l2 → ∀ b ∈ l2, ∃ a ∈ l1, R a b := by
  intro l1 l2 h
  induction h with
  | nil =>
    intro b hb
    simp at hb
  | @cons a b as bs hR hrest ih =>
    intro x hx
    rcases List.mem_cons.mp hx with rfl | hx
    · exact ⟨a, List.mem_cons_self a as, hR⟩
    · obtain ⟨a2, ha2, hr⟩ := ih x hx
      exact ⟨a2, List.mem_cons_of_mem a ha2, hr⟩

/-- **C2 (amended)**: provided every Reference cell's id resolves in the
pre-pass String Table, then after `libo_xl_renumber_strings` (i) the fresh
table is the first-encounter de-duplication of the document-order Reference
texts — since an entry's id is its position, ids are exactly the dense
range 0..N-1 assigned in first-encounter order walking sheets, rows and
cells in document order; (ii) the fresh table has no duplicate entries, so
equal text occurring in multiple cells (including across sheets) maps to a
single entry; (iii) every cell is renumbered per `renumbered_ok`: a
Reference cell keeps everything but its id and its new id is the id under
which its text is found in the fresh table — hence cells of equal text
receive equal ids; and (iv) every Reference cell's id resolves to an entry
of the fresh table. -/
theorem C2_renumber_strings_amended (old : List String) (book : libo_xl_book)
    (H : ∀ c ∈ allCells book, c.type = libo_xl_cell_type.reference →
      (strings_find_by_id old c.reference).isSome) :
    (libo_xl_renumber_strings old book).2 = firstDedup (docTexts old book) ∧
    (libo_xl_renumber_strings old book).2.Nodup ∧
    List.Forall₂ (renumbered_ok old (libo_xl_renumber_strings old book).2)
      (allCells book) (allCells (libo_xl_renumber_strings old book).1) ∧
    ∀ c' ∈ allCells (libo_xl_renumber_strings old book).1,
      c'.type = libo_xl_cell_type.reference →
      ∃ t, strings_find_by_id (libo_xl_renumber_strings old book).2 c'.reference
        = some (c'.reference.toNat, t) := by
  obtain ⟨hs1, hs2⟩ := renumber_sheets_flat old book.sheet ([], 0)
  have hres2 : (libo_xl_renumber_strings old book).2
      = (mapAccumL (renumber_cell old) ([], 0) (allCells book)).1.1 := by
    simp only [libo_xl_renumber_strings]
    rw [hs1]
    rfl
  have hres1 : allCells (libo_xl_renumber_strings old book).1
      = (mapAccumL (renumber_cell old) ([], 0) (allCells book)).2 := by
    simp only [libo_xl_renumber_strings, allCells]
    exact hs2
  obtain ⟨m1, m2, m3, m4⟩ := renumber_cells_spec old (allCells book) [] H
  simp only [List.length_nil] at m1 m2 m3 m4
  refine ⟨?_, ?_, ?_, ?_⟩
  · rw [hres2]
    exact m1
  · rw [hres2, m1]
    exact foldl_strings_add_nodup _ List.nodup_nil
  · rw [hres2, hres1]
    exact m4
  · intro c' hc' h'
    rw [hres1] at hc'
    rw [hres2]
    obtain ⟨c, hcmem, hR⟩ := forall₂_exists_left m4 c' hc'
    by_cases hcr : c.type = libo_xl_cell_type.reference
    · obtain ⟨e, he⟩ := Option.isSome_iff_exists.mp (H c hcmem hcr)
      obtain ⟨-, hnn, hfind⟩ := hR.2 hcr e he
      refine ⟨e.2, ?_⟩
      have := strings_find_by_id_of_find_by_text hfind
      rwa [Int.toNat_of_nonneg hnn] at this
    · have hceq := hR.1 hcr
      rw [hceq] at h'
      exact absurd h' hcr

/-- A Reference cell with a given string-table id. -/
def c2_refcell (i : Int) : libo_xl_cell :=
  { type := libo_xl_cell_type.reference
    reference := i
    expression := { formula := Option.none, value := Option.none }
    number := 0 }

/-- A one-sheet, one-row, one-cell workbook whose single Reference cell
carries id 0 while the string table is empty: the id does not resolve. -/
def c2_dangling_book : libo_xl_book :=
  { sheet := [{ libo_xl_sheet_new with row := [{ cell := [c2_refcell 0] }] }] }

/-- **C2 counterexample**: running the renumbering pass on a document
holding one Reference cell whose id (0) is absent from the (empty) String
Table produces an empty fresh table while the cell keeps Reference kind
with id 0 — which does NOT resolve to any entry of the new table, and the
pass's counter was advanced without adding an entry.  The claim, which
asserts this for every document "regardless of how the in-memory table was
populated or mutated", is therefore false as stated. -/
theorem C2_counterexample_dangling_id :
    (libo_xl_renumber_strings [] c2_dangling_book).2 = [] ∧
    allCells (libo_xl_renumber_strings [] c2_dangling_book).1 = [c2_refcell 0] ∧
    (c2_refcell 0).type = libo_xl_cell_type.reference ∧
    strings_find_by_id (libo_xl_renumber_strings [] c2_dangling_book).2
      (c2_refcell 0).reference = Option.none := by
  refine ⟨rfl, rfl, rfl, rfl⟩

/-- A two-sheet workbook sharing the text with id 1 ("World") across
sheets, against the pre-pass table ["Hello", "World"]. -/
def c2_witness_book : libo_xl_book :=
  { sheet :=
      [{ libo_xl_sheet_new with row := [{ cell := [c2_refcell 1, c2_refcell 0] }] },
       { libo_xl_sheet_new with row := [{ cell := [c2_refcell 1] }] }] }

/-- Witness for the amended C2 theorem on `c2_witness_book`: all ids
resolve in the pre-pass table, and the conclusion holds there. -/
theorem C2_renumber_strings_amended_witness :
    (∀ c ∈ allCells c2_witness_book, c.type = libo_xl_cell_type.reference →
      (strings_find_by_id ["Hello", "World"] c.reference).isSome) ∧
    ((libo_xl_renumber_strings ["Hello", "World"] c2_witness_book).2
        = firstDedup (docTexts ["Hello", "World"] c2_witness_book) ∧
     (libo_xl_renumber_strings ["Hello", "World"] c2_witness_book).2.Nodup ∧
     List.Forall₂
       (renumbered_ok ["Hello", "World"]
         (libo_xl_renumber_strings ["Hello", "World"] c2_witness_book).2)
       (allCells c2_witness_book)
       (allCells (libo_xl_renumber_strings ["Hello", "World"] c2_witness_book).1) ∧
     ∀ c' ∈ allCells (libo_xl_renumber_strings ["Hello", "World"] c2_witness_book).1,
       c'.type = libo_xl_cell_type.reference →
       ∃ t, strings_find_by_id
           (libo_xl_renumber_strings ["Hello", "World"] c2_witness_book).2
           c'.reference
         = some (c'.reference.toNat, t)) :=
  ⟨by decide, C2_renumber_strings_amended ["Hello", "World"] c2_witness_book (by decide)⟩

/- ### Reader: worksheet row materialization (claim C3) -/

/-- The byte values of a text datum handed to a byte-scanning routine
(ASCII view of the C string). -/
def byteList (s : String) : List Nat :=
  s.data.map Char.toNat

/-- Digit accumulation for `atof` (value of a digit run). -/
def natOfDigits (l : List Nat) : Nat :=
  l.foldl (fun acc d => acc * 10 + (d - 48)) 0

/-- C `atof` with exact-decimal semantics: whitespace, optional sign,
integer digits, optional fraction, optional decimal exponent.  The binary
double rounding of the real `atof` is not modelled (the parsed value is
kept exact in ℚ), and neither are the hex/inf/nan forms; no claim depends
on the parsed numeric value. -/
def atofQ (s : List Nat) : ℚ :=
  let s1 := s.dropWhile isspaceb
  let sp : ℚ × List Nat :=
    match s1 with
    | 45 :: r => (-1, r)
    | 43 :: r => (1, r)
    | _ => (1, s1)
  let intPart := sp.2.takeWhile isdigitb
  let s3 := sp.2.dropWhile isdigitb
  let fp : List Nat × List Nat :=
    match s3 with
    | 46 :: r => (r.takeWhile isdigitb, r.dropWhile isdigitb)
    | _ => ([], s3)
  let expVal : Int :=
    match fp.2 with
    | 101 :: r =>
      (match r with
       | 45 :: r2 => - (natOfDigits (r2.takeWhile isdigitb) : Int)
       | 43 :: r2 => (natOfDigits (r2.takeWhile isdigitb) : Int)
       | _ => (natOfDigits (r.takeWhile isdigitb) : Int))
    | 69 :: r =>
      (match r with
       | 45 :: r2 => - (natOfDigits (r2.takeWhile isdigitb) : Int)
       | 43 :: r2 => (natOfDigits (r2.takeWhile isdigitb) : Int)
       | _ => (natOfDigits (r.takeWhile isdigitb) : Int))
    | _ => 0
  sp.1 * ((natOfDigits intPart : ℚ) +
          (natOfDigits fp.1 : ℚ) / (10 : ℚ) ^ fp.1.length) * (10 : ℚ) ^ expVal

/-- `string_to_libo_xl_cell_type` (libo.c:3406-3414): "s" is Reference,
"e" is Expression, anything else is none (the caller handles the absent
attribute by choosing Number). -/
def string_to_libo_xl_cell_type (s : String) : libo_xl_cell_type :=
  if s = "s" then libo_xl_cell_type.reference
  else if s = "e" then libo_xl_cell_type.expression
  else libo_xl_cell_type.none

/-- A child node of a worksheet `row` XML element as the Reader walks it
(libo.c:2610-2678): a `c` (cell) element with its `r` and `t` attributes
(either possibly absent) and its child elements as (name, text-content)
pairs — or any other node, which the loop skips over while still
advancing the fill cursor `j`. -/
inductive xml_row_node where
  | c (r : Option String) (t : Option String) (children : List (String × String))
  | other
deriving DecidableEq, Repr

/-- The 0-based column the Reader derives for a node: for a `c` element
the column half of `cell_ref_to_row_col` on its `r` attribute (0 when the
attribute is absent — the C function zeroes its out-parameters and
returns early on NULL); irrelevant (0) for other nodes. -/
def node_col : xml_row_node → Int
  | xml_row_node.c r _ _ =>
    (match r with
     | some s => (cell_ref_to_row_col (byteList s)).2
     | Option.none => 0)
  | xml_row_node.other => 0

/-- The cell populated from a declared `c` element (libo.c:2631-2672):
kind from the `t` attribute (absent means Number), then the payload from
the `v`/`f` children — each matching child overwrites, so the last one
wins, mirroring the C loops. -/
def populate_cell (t : Option String) (children : List (String × String)) :
    libo_xl_cell :=
  let ty := match t with
            | some s => string_to_libo_xl_cell_type s
            | Option.none => libo_xl_cell_type.number
  let cell := { libo_xl_cell_new with type := ty }
  match ty with
  | libo_xl_cell_type.none => cell
  | libo_xl_cell_type.reference =>
    let r := children.foldl
      (fun acc ch => if ch.1 = "v" then atoi (byteList ch.2) else acc)
      cell.reference
    { cell with reference := r }
  | libo_xl_cell_type.expression =>
    let e := children.foldl
      (fun e ch =>
        if ch.1 = "f" then { e with formula := some ch.2 }
        else if ch.1 = "v" then { e with value := some ch.2 }
        else e)
      cell.expression
    { cell with expression := e }
  | libo_xl_cell_type.number =>
    let v := children.foldl
      (fun acc ch => if ch.1 = "v" then atofQ (byteList ch.2) else acc)
      cell.number
    { cell with number := v }

/-- The cell the result of a declared `c` element leaves at its column. -/
def node_payload : xml_row_node → libo_xl_cell
  | xml_row_node.c _ t children => populate_cell t children
  | xml_row_node.other => libo_xl_cell_new

/-- The cell the Reader's backfill writes into a skipped or trailing
position (libo.c:2621-2627 and 2680-2686): kind Expression with an empty
cached-value string — NOT a fresh Empty cell. -/
def backfill_cell : libo_xl_cell :=
  { libo_xl_cell_new with
    type := libo_xl_cell_type.expression
    expression := { formula := Option.none, value := some "" } }

/-- Write `backfill_cell` at every position `j ≤ p < stop` (the `while`
backfill loops).  `List.set` ignores out-of-range indices; the C writes
there are out-of-bounds stores (undefined behaviour), which the claims
avoid by keeping declared columns inside the grid. -/
def fillRange_go : Nat → Nat → List libo_xl_cell → List libo_xl_cell
  | 0, _, cells => cells
  | d + 1, j, cells => fillRange_go d (j + 1) (cells.set j backfill_cell)

def fillRange (cells : List libo_xl_cell) (j stop : Nat) : List libo_xl_cell :=
  fillRange_go (stop - j) j cells

/-- The position a declared `c` element is written to, given the fill
cursor `j`: its declared column when that is ahead of the cursor (the
`while (j < c)` backfill runs first), the cursor itself otherwise. -/
def write_pos (j : Nat) (r : Option String) : Nat :=
  let c := (match r with
            | some s => cell_ref_to_row_col (byteList s)
            | Option.none => ((0 : Int), (0 : Int))).2
  if (j : Int) < c then c.toNat else j

/-- The per-row walk of `libo_xl_sheet_rows_read` (libo.c:2610-2686):
process child nodes while the cursor is inside the grid; a `c` element
first backfills the skipped positions up to its write position, is
written there, and the cursor moves past it; any other node advances the
cursor by one; after the nodes run out the trailing positions are
backfilled. -/
def rows_read_row (n_cols : Nat) (cells : List libo_xl_cell)
    (nodes : List xml_row_node) (j : Nat) : List libo_xl_cell :=
  match nodes with
  | [] => fillRange cells j n_cols
  | node :: rest =>
    if j < n_cols then
      match node with
      | xml_row_node.c r t children =>
        rows_read_row n_cols
          ((fillRange cells j (write_pos j r)).set (write_pos j r)
            (populate_cell t children))
          rest (write_pos j r + 1)
      | xml_row_node.other => rows_read_row n_cols cells rest (j + 1)
    else fillRange cells j n_cols

/-- `libo_xl_sheet_rows_read` (libo.c:2541-2698): pre-sizes an
`n_rows × n_cols` grid of fresh Empty cells (every row's `n_cells` is set
to `n_cols`); when the XML row count does not match the declared count the
grid is left untouched, otherwise each row is filled from its row
element's children. -/
def libo_xl_sheet_rows_read (n_rows n_cols : Nat)
    (xmlRows : List (List xml_row_node)) : List libo_xl_row :=
  let base : List libo_xl_row :=
    List.replicate n_rows { cell := List.replicate n_cols libo_xl_cell_new }
  if xmlRows.length ≠ n_rows then base
  else
    xmlRows.map (fun nodes =>
      { cell := rows_read_row n_cols (List.replicate n_cols libo_xl_cell_new) nodes 0 })

theorem fillRange_go_length : ∀ (d j : Nat) (cells : List libo_xl_cell),
    (fillRange_go d j cells).length = cells.length := by
  intro d
  induction d with
  | zero =>
    intro j cells
    rfl
  | succ n ih =>
    intro j cells
    rw [fillRange_go, ih (j + 1) _, List.length_set]

theorem fillRange_length (cells : List libo_xl_cell) (j stop : Nat) :
    (fillRange cells j stop).length = cells.length :=
  fillRange_go_length (stop - j) j cells

theorem fillRange_go_get? : ∀ (d j : Nat) (cells : List libo_xl_cell) (p : Nat),
    (fillRange_go d j cells).get? p =
      if j ≤ p ∧ p < j + d ∧ p < cells.length then some backfill_cell
      else cells.get? p := by
  intro d
  induction d with
  | zero =>
    intro j cells p
    rw [fillRange_go, if_neg (by omega)]
  | succ n ih =>
    intro j cells p
    rw [fillRange_go, ih (j + 1) _ p]
    by_cases hp : p = j
    · subst hp
      rw [if_neg (by omega)]
      by_cases hpl : p < cells.length
      · rw [if_pos ⟨le_refl p, by omega, hpl⟩]
        rw [List.get?_set_eq]
        rw [List.get?_eq_get hpl]
        rfl
      · rw [if_neg (by omega)]
        have h1 : (cells.set p backfill_cell).get? p = Option.none :=
          List.get?_eq_none.mpr (by rw [List.length_set]; omega)
        have h2 : cells.get? p = Option.none :=
          List.get?_eq_none.mpr (by omega)
        rw [h1, h2]
    · rw [List.length_set, List.get?_set_ne _ _ (fun h => hp h.symm)]
      by_cases hc : j ≤ p ∧ p < j + (n + 1) ∧ p < cells.length
      · rw [if_pos ⟨by omega, by omega, hc.2.2⟩, if_pos hc]
      · rw [if_neg (fun h => hc ⟨by omega, by omega, h.2.2⟩), if_neg hc]

theorem fillRange_get? (cells : List libo_xl_cell) (j stop p : Nat) :
    (fillRange cells j stop).get? p =
      if j ≤ p ∧ p < stop ∧ p < cells.length then some backfill_cell
      else cells.get? p := by
  rw [fillRange, fillRange_go_get?]
  by_cases hc : j ≤ p ∧ p < stop ∧ p < cells.length
  · rw [if_pos ⟨hc.1, by omega, hc.2.2⟩, if_pos hc]
  · rw [if_neg (fun h => hc ⟨h.1, by omega, h.2.2⟩), if_neg hc]

theorem rows_read_row_spec (n_cols : Nat) :
    ∀ (nodes : List xml_row_node) (cells : List libo_xl_cell) (j : Nat),
      cells.length = n_cols →
      (∀ node ∈ nodes, ∃ r t ch, node = xml_row_node.c r t ch) →
      List.Pairwise (fun a b => node_col a < node_col b) nodes →
      (∀ node ∈ nodes, (j : Int) ≤ node_col node ∧ node_col node < (n_cols : Int)) →
      (rows_read_row n_cols cells nodes j).length = n_cols ∧
      (∀ node ∈ nodes,
        (rows_read_row n_cols cells nodes j).get? (node_col node).toNat
          = some (node_payload node)) ∧
      (∀ p, p < j → (rows_read_row n_cols cells nodes j).get? p = cells.get? p) ∧
      (∀ p, j ≤ p → p < n_cols →
        (∀ node ∈ nodes, (node_col node).toNat ≠ p) →
        (rows_read_row n_cols cells nodes j).get? p = some backfill_cell) := by
  intro nodes
  induction nodes with
  | nil =>
    intro cells j hlen _ _ _
    refine ⟨?_, ?_, ?_, ?_⟩
    · rw [rows_read_row, fillRange_length, hlen]
    · intro node hn
      simp at hn
    · intro p hp
      rw [rows_read_row, fillRange_get?, if_neg (by omega)]
    · intro p hp1 hp2 _
      rw [rows_read_row, fillRange_get?, if_pos ⟨hp1, hp2, by omega⟩]
  | cons node rest ih =>
    intro cells j hlen hall hpw hbnd
    obtain ⟨r, t, ch, rfl⟩ := hall node (List.mem_cons_self node rest)
    obtain ⟨hj_le, hcol_lt⟩ := hbnd _ (List.mem_cons_self _ rest)
    have h0col : 0 ≤ node_col (xml_row_node.c r t ch) :=
      le_trans (Int.natCast_nonneg j) hj_le
    have hwcast : ((node_col (xml_row_node.c r t ch)).toNat : Int)
        = node_col (xml_row_node.c r t ch) := Int.toNat_of_nonneg h0col
    have hwj : j ≤ (node_col (xml_row_node.c r t ch)).toNat := by omega
    have hwlt : (node_col (xml_row_node.c r t ch)).toNat < n_cols := by omega
    have hjlt : j < n_cols := lt_of_le_of_lt hwj hwlt
    have hwp : write_pos j r = (node_col (xml_row_node.c r t ch)).toNat := by
      rw [write_pos.eq_def]
      have hc2 : (match r with
          | some s => cell_ref_to_row_col (byteList s)
          | Option.none => ((0 : Int), (0 : Int))).2
          = node_col (xml_row_node.c r t ch) := by
        cases r <;> rfl
      rw [hc2]
      show (if (j : Int) < node_col (xml_row_node.c r t ch)
          then (node_col (xml_row_node.c r t ch)).toNat else j)
        = (node_col (xml_row_node.c r t ch)).toNat
      split
      · rfl
      · omega
    have hstep : rows_read_row n_cols cells (xml_row_node.c r t ch :: rest) j
        = rows_read_row n_cols
            ((fillRange cells j (node_col (xml_row_node.c r t ch)).toNat).set
              ((node_col (xml_row_node.c r t ch)).toNat) (populate_cell t ch))
            rest ((node_col (xml_row_node.c r t ch)).toNat + 1) := by
      rw [rows_read_row, if_pos hjlt, hwp]
    obtain ⟨hhead, htail⟩ := List.pairwise_cons.mp hpw
    have hlen2 : ((fillRange cells j (node_col (xml_row_node.c r t ch)).toNat).set
        ((node_col (xml_row_node.c r t ch)).toNat) (populate_cell t ch)).length
        = n_cols := by
      rw [List.length_set, fillRange_length, hlen]
    have hall2 : ∀ node' ∈ rest, ∃ r2 t2 ch2, node' = xml_row_node.c r2 t2 ch2 :=
      fun node' hm => hall node' (List.mem_cons_of_mem _ hm)
    have hbnd2 : ∀ node' ∈ rest,
        (((node_col (xml_row_node.c r t ch)).toNat + 1 : Nat) : Int) ≤ node_col node' ∧
        node_col node' < (n_cols : Int) := by
      intro node' hm
      have h1 := hhead node' hm
      have h2 := (hbnd node' (List.mem_cons_of_mem _ hm)).2
      constructor
      · push_cast
        omega
      · exact h2
    obtain ⟨ih1, ih2, ih3, ih4⟩ := ih _ ((node_col (xml_row_node.c r t ch)).toNat + 1)
      hlen2 hall2 htail hbnd2
    rw [hstep]
    refine ⟨ih1, ?_, ?_, ?_⟩
    · intro node' hn'
      rcases List.mem_cons.mp hn' with heq | hn'
      · subst heq
        rw [ih3 _ (by omega)]
        have hfl : (node_col (xml_row_node.c r t ch)).toNat
            < (fillRange cells j (node_col (xml_row_node.c r t ch)).toNat).length := by
          rw [fillRange_length, hlen]
          exact hwlt
        rw [List.get?_set_eq, List.get?_eq_get hfl]
        rfl
      · exact ih2 node' hn'
    · intro p hp
      rw [ih3 p (by omega),
        List.get?_set_ne _ _ (by omega : (node_col (xml_row_node.c r t ch)).toNat ≠ p),
        fillRange_get?, if_neg (by omega)]
    · intro p hp1 hp2 hnot
      have hpw' : (node_col (xml_row_node.c r t ch)).toNat ≠ p :=
        hnot _ (List.mem_cons_self _ rest)
      by_cases hpcase : p < (node_col (xml_row_node.c r t ch)).toNat
      · rw [ih3 p (by omega), List.get?_set_ne _ _ (by omega), fillRange_get?,
          if_pos ⟨hp1, hpcase, by omega⟩]
      · exact ih4 p (by omega) hp2 (fun node' hm => hnot node' (List.mem_cons_of_mem _ hm))

/-- Whether a row child node is a `c` (cell) element. -/
def node_is_c : xml_row_node → Bool
  | xml_row_node.c _ _ _ => true
  | xml_row_node.other => false

theorem node_is_c_iff (node : xml_row_node) :
    node_is_c node = true ↔ ∃ r t ch, node = xml_row_node.c r t ch := by
  cases node with
  | c r t ch => simp [node_is_c]
  | other => simp [node_is_c]

/-- **C3 (amended)**: when the Reader materializes a worksheet whose rows
declare only `c` elements with strictly increasing, in-range columns
(sparse and jagged rows included), every row of the result has exactly
`n_cols` cells; each declared cell sits at its declared column; and every
skipped position before a declared cell and every trailing position after
the last declared cell is filled with `backfill_cell` — a cell of
EXPRESSION kind whose cached value is the empty string (not a cell of
Empty kind, which is what the claim as stated asserts). -/
theorem C3_rows_read_amended (n_rows n_cols : Nat)
    (xmlRows : List (List xml_row_node))
    (h1 : xmlRows.length = n_rows)
    (h2 : ∀ nodes ∈ xmlRows, ∀ node ∈ nodes, node_is_c node = true)
    (h3 : ∀ nodes ∈ xmlRows, List.Pairwise (fun a b => node_col a < node_col b) nodes)
    (h4 : ∀ nodes ∈ xmlRows, ∀ node ∈ nodes,
      0 ≤ node_col node ∧ node_col node < (n_cols : Int)) :
    (∀ row ∈ libo_xl_sheet_rows_read n_rows n_cols xmlRows,
      row.cell.length = n_cols) ∧
    List.Forall₂ (fun nodes row =>
        (∀ node ∈ nodes,
          row.cell.get? (node_col node).toNat = some (node_payload node)) ∧
        (∀ p, p < n_cols → (∀ node ∈ nodes, (node_col node).toNat ≠ p) →
          row.cell.get? p = some backfill_cell))
      xmlRows (libo_xl_sheet_rows_read n_rows n_cols xmlRows) := by
  have hrw : libo_xl_sheet_rows_read n_rows n_cols xmlRows
      = xmlRows.map (fun nodes =>
          { cell := rows_read_row n_cols (List.replicate n_cols libo_xl_cell_new) nodes 0 }) := by
    rw [libo_xl_sheet_rows_read]
    rw [if_neg (fun hne => hne h1)]
  have hspec : ∀ nodes ∈ xmlRows,
      (rows_read_row n_cols (List.replicate n_cols libo_xl_cell_new) nodes 0).length = n_cols ∧
      (∀ node ∈ nodes,
        (rows_read_row n_cols (List.replicate n_cols libo_xl_cell_new) nodes 0).get?
          (node_col node).toNat = some (node_payload node)) ∧
      (∀ p, p < 0 →
        (rows_read_row n_cols (List.replicate n_cols libo_xl_cell_new) nodes 0).get? p
          = (List.replicate n_cols libo_xl_cell_new).get? p) ∧
      (∀ p, 0 ≤ p → p < n_cols →
        (∀ node ∈ nodes, (node_col node).toNat ≠ p) →
        (rows_read_row n_cols (List.replicate n_cols libo_xl_cell_new) nodes 0).get? p
          = some backfill_cell) := by
    intro nodes hm
    refine rows_read_row_spec n_cols nodes (List.replicate n_cols libo_xl_cell_new) 0
      (List.length_replicate n_cols libo_xl_cell_new)
      (fun node hn => (node_is_c_iff node).mp (h2 nodes hm node hn))
      (h3 nodes hm) ?_
    intro node hn
    obtain ⟨ha, hb⟩ := h4 nodes hm node hn
    exact ⟨by exact_mod_cast ha, hb⟩
  constructor
  · intro row hrowm
    rw [hrw] at hrowm
    obtain ⟨nodes, hm, rfl⟩ := List.mem_map.mp hrowm
    exact (hspec nodes hm).1
  · rw [hrw]
    rw [List.forall₂_map_right_iff]
    rw [List.forall₂_same]
    intro nodes hm
    obtain ⟨-, hs2, -, hs4⟩ := hspec nodes hm
    exact ⟨hs2, fun p hp hnot => hs4 p (Nat.zero_le p) hp hnot⟩

/-- **C3 counterexample**: a 1-row, 2-column worksheet declaring only the
cell "B1" (a Reference cell).  The skipped position A1 is materialized as
a cell of Expression kind holding the empty string as its cached value —
not as a cell of Empty kind as the claim states. -/
theorem C3_counterexample_backfill_not_empty :
    libo_xl_sheet_rows_read 1 2
        [[xml_row_node.c (some "B1") (some "s") [("v", "0")]]]
      = [{ cell := [backfill_cell,
                    { type := libo_xl_cell_type.reference
                      reference := 0
                      expression := { formula := Option.none, value := Option.none }
                      number := 0 }] }] ∧
    backfill_cell.type = libo_xl_cell_type.expression ∧
    backfill_cell.type ≠ libo_xl_cell_type.none := by
  refine ⟨by decide, rfl, by decide⟩

/-- A jagged two-row worksheet body: row 1 declares "A1" and "C1" (3-cell
span with a gap at B1), row 2 declares only "A2". -/
def c3_witness_rows : List (List xml_row_node) :=
  [[xml_row_node.c (some "A1") Option.none [("v", "1")],
    xml_row_node.c (some "C1") Option.none [("v", "2")]],
   [xml_row_node.c (some "A2") Option.none [("v", "3")]]]

/-- Witness for the amended C3 theorem on the jagged worksheet. -/
theorem C3_rows_read_amended_witness :
    c3_witness_rows.length = 2 ∧
    (∀ nodes ∈ c3_witness_rows, ∀ node ∈ nodes, node_is_c node = true) ∧
    (∀ nodes ∈ c3_witness_rows,
      List.Pairwise (fun a b => node_col a < node_col b) nodes) ∧
    (∀ nodes ∈ c3_witness_rows, ∀ node ∈ nodes,
      0 ≤ node_col node ∧ node_col node < ((3 : Nat) : Int)) ∧
    ((∀ row ∈ libo_xl_sheet_rows_read 2 3 c3_witness_rows,
        row.cell.length = 3) ∧
     List.Forall₂ (fun nodes row =>
         (∀ node ∈ nodes,
           row.cell.get? (node_col node).toNat = some (node_payload node)) ∧
         (∀ p, p < 3 → (∀ node ∈ nodes, (node_col node).toNat ≠ p) →
           row.cell.get? p = some backfill_cell))
       c3_witness_rows (libo_xl_sheet_rows_read 2 3 c3_witness_rows)) :=
  ⟨rfl, by decide, by decide, by decide,
   C3_rows_read_amended 2 3 c3_witness_rows rfl (by decide) (by decide) (by decide)⟩
